import Mathlib

/-!
Verification of the race simulation engine: a shallow embedding of
`game.py`, `entities/car.py`, `entities/obstacle.py` and
`controllers/random.py` (constants from `config.py`), with the properties
of the specification proved against it.

Modelling conventions:
* Python floats (positions, speeds, random draws) become rationals.
* Every random draw (`random.random()`, `random.randint`, `random.choice`)
  becomes an explicit parameter; the guarantees Python's `random` module
  gives about a draw (e.g. `random.random() ∈ [0, 1)`) become `Valid…`
  predicates used as hypotheses.
* The pluggable controller is externalized: each car's per-tick decision
  arrives through the `TickInput` as an `Except PolicyError Action`, where
  `Except.error` models the controller call raising an exception.
* Statuses and phases, open strings in Python, become closed enumerations.
-/

namespace RaceSim

/-- config.py: TRACK_LENGTH = 30. -/
def TRACK_LENGTH : ℚ := 30

/-- config.py: NUM_LANES = 4. -/
def NUM_LANES : ℤ := 4

/-- config.py: OBSTACLE_SPAWN_RATE = 0.1. -/
def OBSTACLE_SPAWN_RATE : ℚ := 1 / 10

/-- config.py: CAR_SYMBOLS. -/
def CAR_SYMBOLS : List String := ["🚗", "🚙", "🚕", "🚓"]

/-- config.py: OBSTACLE_SYMBOLS. -/
def OBSTACLE_SYMBOLS : List String := ["🚧", "💥", "🛑"]

/-- Car status strings of car.py as a closed enumeration. -/
inductive Status where
  | active
  | crashed
  | finished
deriving DecidableEq, Repr

/-- Game phase strings of game.py (`game_state`) as a closed enumeration. -/
inductive GameState where
  | initialized
  | running
  | finished
deriving DecidableEq, Repr

/-- Obstacle type strings of obstacle.py as a closed enumeration. -/
inductive OType where
  | static
  | moving
deriving DecidableEq, Repr

/-- A controller call that raises: the exception value (C8 / §7 of the spec). -/
structure PolicyError where
  msg : String
deriving DecidableEq, Repr

/-- A controller decision (controllers/random.py returns a dict): any dict
whose 'type' key is not 'lane_change' leaves the car in its lane, so the
decision space collapses to stay or a lane change by an integer amount. -/
inductive Action where
  | stay
  | lane_change (direction : ℤ)
deriving DecidableEq, Repr

/-- Car (car.py): the `_controller` reference is externalized into the
per-tick `TickInput`; all other attributes are carried verbatim. -/
structure Car where
  id : ℕ
  lane : ℤ
  position : ℚ
  speed : ℚ
  symbol : String
  status : Status
deriving DecidableEq, Repr

/-- Car.__init__: position 0, speed = random.random() * 1.5 + 0.5, symbol
from CAR_SYMBOLS by id, status active. `r` stands for the speed draw. -/
def Car.make (id : ℕ) (lane : ℤ) (r : ℚ) : Car :=
  { id := id, lane := lane, position := 0, speed := r * (3 / 2) + 1 / 2,
    symbol := CAR_SYMBOLS.getD (id % CAR_SYMBOLS.length) "", status := .active }

/-- Car.move_down: no-op unless active; add the speed to the position, and
if the result reaches TRACK_LENGTH clamp it there and finish. -/
def Car.move_down (c : Car) : Car :=
  if c.status ≠ .active then c
  else
    let p := c.position + c.speed
    if TRACK_LENGTH ≤ p then { c with position := TRACK_LENGTH, status := .finished }
    else { c with position := p }

/-- Car.switch_lane: no-op unless active; apply `lane + direction` only when
it lies in `[0, NUM_LANES)`. -/
def Car.switch_lane (c : Car) (direction : ℤ) : Car :=
  if c.status ≠ .active then c
  else
    let new_lane := c.lane + direction
    if 0 ≤ new_lane ∧ new_lane < NUM_LANES then { c with lane := new_lane } else c

/-- The random draws consumed by Obstacle.__init__ and
Obstacle.create_random: `laneRoll` stands for the randint(0, NUM_LANES - 1)
result, `typeRoll` and `speedRoll` for random.random() results, `symbolRoll`
for the index random.choice picks into OBSTACLE_SYMBOLS. -/
structure ObstacleDraws where
  laneRoll : ℕ
  typeRoll : ℚ
  speedRoll : ℚ
  symbolRoll : ℕ
deriving DecidableEq, Repr

/-- What Python's random module guarantees about the draws of one
Obstacle construction. -/
def ValidDraws (d : ObstacleDraws) : Prop :=
  (d.laneRoll : ℤ) < NUM_LANES ∧ (0 ≤ d.typeRoll ∧ d.typeRoll < 1)
    ∧ (0 ≤ d.speedRoll ∧ d.speedRoll < 1) ∧ d.symbolRoll < OBSTACLE_SYMBOLS.length

instance (d : ObstacleDraws) : Decidable (ValidDraws d) := by
  unfold ValidDraws; infer_instance

/-- Obstacle (obstacle.py). -/
structure Obstacle where
  lane : ℤ
  position : ℚ
  type : OType
  symbol : String
  speed : ℚ
deriving DecidableEq, Repr

/-- Obstacle.__init__: the speed is drawn inside the constructor,
`random.random() * 0.5` when moving and 0.0 when static. -/
def Obstacle.make (lane : ℤ) (position : ℚ) (type : OType) (d : ObstacleDraws) : Obstacle :=
  { lane := lane, position := position, type := type,
    symbol := OBSTACLE_SYMBOLS.getD d.symbolRoll "",
    speed := if type = .moving then d.speedRoll * (1 / 2) else 0 }

/-- Obstacle.update: a moving obstacle advances by its speed. -/
def Obstacle.update (o : Obstacle) : Obstacle :=
  if o.type = .moving then { o with position := o.position + o.speed } else o

/-- Obstacle.is_off_track. -/
def Obstacle.is_off_track (o : Obstacle) (track_length : ℚ) : Bool :=
  decide (o.position < 0 ∨ track_length < o.position)

/-- Obstacle.create_random: lane = randint(0, NUM_LANES - 1), moving when
the type draw is below 0.2. -/
def Obstacle.create_random (position : ℚ) (d : ObstacleDraws) : Obstacle :=
  Obstacle.make (d.laneRoll : ℤ) position
    (if d.typeRoll < 1 / 5 then .moving else .static) d

/-- Car.check_collision: false unless active; true iff some obstacle shares
the lane with the real-valued positions closer than 1. -/
def Car.check_collision (c : Car) (obstacles : List Obstacle) : Bool :=
  if c.status ≠ .active then false
  else obstacles.any fun o => decide (o.lane = c.lane ∧ |o.position - c.position| < 1)

/-- Car.crash: status crashed, speed halved. -/
def Car.crash (c : Car) : Car :=
  { c with status := .crashed, speed := c.speed * (1 / 2) }

/-- Car.update_async: a non-active car returns before consulting its
controller; otherwise the controller's decision is awaited (a raising
controller propagates its exception), a lane_change decision is applied,
and the car always moves down. -/
def Car.update_async (c : Car) (a : Except PolicyError Action) : Except PolicyError Car :=
  if c.status ≠ .active then .ok c
  else
    match a with
    | .error e => .error e
    | .ok .stay => .ok c.move_down
    | .ok (.lane_change d) => .ok ((c.switch_lane d).move_down)

/-- Game state (game.py attributes). -/
structure Game where
  cars : List Car
  obstacles : List Obstacle
  track_length : ℚ
  tick : ℕ
  game_state : GameState
  winner : Option Car
deriving DecidableEq, Repr

/-- Game.__init__. -/
def Game.new : Game :=
  { cars := [], obstacles := [], track_length := TRACK_LENGTH, tick := 0,
    game_state := .initialized, winner := none }

/-- Game.initialize: four cars, one per lane in lane order with id =
starting lane, then phase running; `d i` stands for car i's speed draw. -/
def Game.initRace (g : Game) (d : ℕ → ℚ) : Game :=
  { g with
    cars := ([0, 1, 2, 3] : List ℕ).map fun lane => Car.make lane (lane : ℤ) (d lane),
    game_state := .running }

/-- Game.update_obstacles: advance every obstacle, then keep exactly those
not off track (a pure filter). -/
def Game.update_obstacles (g : Game) : Game :=
  let moved := g.obstacles.map Obstacle.update
  { g with obstacles := moved.filter fun o => ! o.is_off_track g.track_length }

/-- Game.spawn_obstacle: with the spawn draw below OBSTACLE_SPAWN_RATE,
append one random obstacle at position 0. -/
def Game.spawn_obstacle (g : Game) (roll : ℚ) (d : ObstacleDraws) : Game :=
  if roll < OBSTACLE_SPAWN_RATE then
    { g with obstacles := g.obstacles ++ [Obstacle.create_random 0 d] }
  else g

/-- Game.check_collisions: crash every active car that collides with the
obstacle set (the obstacle set is only read, so one car's crash cannot
affect another car's check). -/
def Game.check_collisions (g : Game) : Game :=
  { g with
    cars := g.cars.map fun c =>
      if c.status = .active ∧ c.check_collision g.obstacles then c.crash else c }

/-- Game.check_win_condition: the first finished car in list order becomes
the winner and the phase finishes; otherwise, if every car crashed, the
phase finishes with no winner. -/
def Game.check_win_condition (g : Game) : Game :=
  match g.cars.find? fun c => decide (c.status = .finished) with
  | some c => { g with winner := some c, game_state := .finished }
  | none =>
    if g.cars.all fun c => decide (c.status = .crashed) then
      { g with game_state := .finished, winner := none }
    else g

/-- The per-tick environment: each car's controller outcome (indexed by the
car's position in `cars`) and the tick's random draws. -/
structure TickInput where
  actions : ℕ → Except PolicyError Action
  spawnRoll : ℚ
  draws : ObstacleDraws

/-- The asyncio.gather step of Game.update: every car's update_async, with
the first raising controller call propagating its exception. -/
def updateCars : List Car → (ℕ → Except PolicyError Action) → ℕ →
    Except PolicyError (List Car)
  | [], _, _ => .ok []
  | c :: cs, acts, i =>
    match c.update_async (acts i) with
    | .error e => .error e
    | .ok c' =>
      match updateCars cs acts (i + 1) with
      | .error e => .error e
      | .ok cs' => .ok (c' :: cs')

/-- The body of Game.update past the gather step, in the source's order:
update_obstacles, spawn_obstacle, check_collisions, check_win_condition,
then the unconditional tick increment. -/
def Game.tickBody (g : Game) (cars' : List Car) (inp : TickInput) : Game :=
  let g5 := (((({ g with cars := cars' }).update_obstacles).spawn_obstacle
    inp.spawnRoll inp.draws).check_collisions).check_win_condition
  { g5 with tick := g5.tick + 1 }

/-- Game.update: no-op unless the phase is running; otherwise the per-tick
transition, with a controller exception propagating out of the tick. -/
def Game.update (g : Game) (inp : TickInput) : Except PolicyError Game :=
  if g.game_state = .running then
    match updateCars g.cars inp.actions 0 with
    | .error e => .error e
    | .ok cars' => .ok (g.tickBody cars' inp)
  else .ok g

/-- A sequence of ticks, stopping at the first controller exception. -/
def runTicks (g : Game) : List TickInput → Except PolicyError Game
  | [] => .ok g
  | inp :: rest =>
    match g.update inp with
    | .error e => .error e
    | .ok g' => runTicks g' rest

/-- What Python's random module guarantees about one tick's draws. -/
def ValidTickInput (inp : TickInput) : Prop :=
  (0 ≤ inp.spawnRoll ∧ inp.spawnRoll < 1) ∧ ValidDraws inp.draws

/-- What Python's random module guarantees about the car speed draws of
Game.initialize. -/
def ValidInitDraws (d : ℕ → ℚ) : Prop := ∀ i, 0 ≤ d i ∧ d i < 1

/-- The states the driver (main.py) can reach: a fresh Game, initialization
of a fresh Game, and any number of non-raising ticks from there. -/
inductive Reachable : Game → Prop where
  | base : Reachable Game.new
  | start : ∀ d, ValidInitDraws d → Reachable (Game.new.initRace d)
  | step : ∀ {g : Game} (inp : TickInput) (g' : Game), Reachable g →
      ValidTickInput inp → g.update inp = .ok g' → Reachable g'

/-! ### Per-car facts -/

/-- Per-car bounds the engine maintains: lane inside `[0, NUM_LANES)`,
positive speed, position inside `[0, TRACK_LENGTH]`. -/
def CarOK (c : Car) : Prop :=
  (0 ≤ c.lane ∧ c.lane < NUM_LANES) ∧ 0 < c.speed ∧ 0 ≤ c.position ∧ c.position ≤ TRACK_LENGTH

/-- What one engine phase may do to one car: identity and symbol are kept,
a non-active car is untouched, and on a well-bounded car the bounds are
kept and the position cannot decrease. -/
def CarStep (c c' : Car) : Prop :=
  c'.id = c.id ∧ c'.symbol = c.symbol ∧
  (c.status ≠ .active → c' = c) ∧
  (CarOK c → CarOK c' ∧ c.position ≤ c'.position)

theorem CarStep.refl (c : Car) : CarStep c c :=
  ⟨rfl, rfl, fun _ => rfl, fun h => ⟨h, le_refl _⟩⟩

theorem CarStep.trans {a b c : Car} (h1 : CarStep a b) (h2 : CarStep b c) : CarStep a c := by
  obtain ⟨hid1, hsy1, hfr1, hok1⟩ := h1
  obtain ⟨hid2, hsy2, hfr2, hok2⟩ := h2
  refine ⟨hid2.trans hid1, hsy2.trans hsy1, ?_, ?_⟩
  · intro hna
    have hb := hfr1 hna
    have := hfr2 (by rw [hb]; exact hna)
    rw [this, hb]
  · intro hok
    obtain ⟨hbok, hble⟩ := hok1 hok
    obtain ⟨hcok, hcle⟩ := hok2 hbok
    exact ⟨hcok, le_trans hble hcle⟩

theorem move_down_carstep (c : Car) : CarStep c c.move_down := by
  unfold Car.move_down CarStep CarOK
  split
  · exact ⟨rfl, rfl, fun _ => rfl, fun h => ⟨h, le_refl _⟩⟩
  · dsimp only
    split
    · refine ⟨rfl, rfl, ?_, ?_⟩
      · intro hna; simp_all
      · rintro ⟨hlane, hsp, hp0, hpL⟩
        refine ⟨⟨hlane, hsp, by norm_num [TRACK_LENGTH], le_refl _⟩, hpL⟩
    · refine ⟨rfl, rfl, ?_, ?_⟩
      · intro hna; simp_all
      · rintro ⟨hlane, hsp, hp0, hpL⟩
        dsimp only
        have hlt : c.position + c.speed < TRACK_LENGTH := by linarith [not_le.mp (by assumption)]
        exact ⟨⟨hlane, hsp, by linarith, le_of_lt hlt⟩, by linarith⟩

theorem switch_lane_carstep (c : Car) (d : ℤ) : CarStep c (c.switch_lane d) := by
  unfold Car.switch_lane CarStep CarOK
  split
  · exact ⟨rfl, rfl, fun _ => rfl, fun h => ⟨h, le_refl _⟩⟩
  · dsimp only
    split
    · refine ⟨rfl, rfl, ?_, ?_⟩
      · intro hna; simp_all
      · rintro ⟨hlane, hrest⟩
        exact ⟨⟨by assumption, hrest⟩, le_refl _⟩
    · exact ⟨rfl, rfl, fun _ => rfl, fun h => ⟨h, le_refl _⟩⟩

theorem update_async_ok_carstep {c : Car} {a : Except PolicyError Action} {c' : Car}
    (h : c.update_async a = .ok c') : CarStep c c' := by
  unfold Car.update_async at h
  split at h
  · cases h; exact CarStep.refl c
  · match a, h with
    | .ok .stay, h => cases h; exact move_down_carstep c
    | .ok (.lane_change d), h =>
      cases h; exact (switch_lane_carstep c d).trans (move_down_carstep _)

theorem crash_ite_carstep (obstacles : List Obstacle) (c : Car) :
    CarStep c (if c.status = .active ∧ c.check_collision obstacles then c.crash else c) := by
  split
  · unfold Car.crash CarStep CarOK
    refine ⟨rfl, rfl, ?_, ?_⟩
    · intro hna; simp_all
    · rintro ⟨hlane, hsp, hpos⟩
      exact ⟨⟨hlane, by positivity, hpos⟩, le_refl _⟩
  · exact CarStep.refl c

/-! ### Forall₂ plumbing -/

theorem forall₂_map_self {α : Type} {R : α → α → Prop} (f : α → α) (l : List α)
    (h : ∀ a ∈ l, R a (f a)) : List.Forall₂ R l (l.map f) := by
  induction l with
  | nil => exact List.Forall₂.nil
  | cons a t ih =>
    exact List.Forall₂.cons (h a (List.mem_cons_self a t))
      (ih fun x hx => h x (List.mem_cons_of_mem a hx))

theorem forall₂_carstep_trans {l1 l2 l3 : List Car}
    (h1 : List.Forall₂ CarStep l1 l2) (h2 : List.Forall₂ CarStep l2 l3) :
    List.Forall₂ CarStep l1 l3 := by
  induction h1 generalizing l3 with
  | nil => cases h2; exact List.Forall₂.nil
  | cons hab htail ih =>
    cases h2 with
    | cons hbc h2tail => exact List.Forall₂.cons (hab.trans hbc) (ih h2tail)

theorem updateCars_ok_forall₂ {cars : List Car} {acts : ℕ → Except PolicyError Action}
    {i : ℕ} {cars' : List Car} (h : updateCars cars acts i = .ok cars') :
    List.Forall₂ CarStep cars cars' := by
  induction cars generalizing i cars' with
  | nil => unfold updateCars at h; cases h; exact List.Forall₂.nil
  | cons c cs ih =>
    unfold updateCars at h
    match hc : c.update_async (acts i) with
    | .error e => rw [hc] at h; cases h
    | .ok c1 =>
      rw [hc] at h
      match hcs : updateCars cs acts (i + 1) with
      | .error e => rw [hcs] at h; cases h
      | .ok cs1 =>
        rw [hcs] at h
        cases h
        exact List.Forall₂.cons (update_async_ok_carstep hc) (ih hcs)

/-! ### Frame lemmas for the stages of a tick -/

@[simp] theorem update_obstacles_cars (g : Game) : (g.update_obstacles).cars = g.cars := rfl

@[simp] theorem update_obstacles_track (g : Game) :
    (g.update_obstacles).track_length = g.track_length := rfl

@[simp] theorem update_obstacles_state (g : Game) :
    (g.update_obstacles).game_state = g.game_state := rfl

@[simp] theorem update_obstacles_winner (g : Game) :
    (g.update_obstacles).winner = g.winner := rfl

theorem update_obstacles_obstacles (g : Game) :
    (g.update_obstacles).obstacles =
      (g.obstacles.map Obstacle.update).filter fun o => ! o.is_off_track g.track_length := rfl

@[simp] theorem spawn_obstacle_cars (g : Game) (r : ℚ) (d : ObstacleDraws) :
    (g.spawn_obstacle r d).cars = g.cars := by
  unfold Game.spawn_obstacle; split <;> rfl

@[simp] theorem spawn_obstacle_track (g : Game) (r : ℚ) (d : ObstacleDraws) :
    (g.spawn_obstacle r d).track_length = g.track_length := by
  unfold Game.spawn_obstacle; split <;> rfl

@[simp] theorem spawn_obstacle_state (g : Game) (r : ℚ) (d : ObstacleDraws) :
    (g.spawn_obstacle r d).game_state = g.game_state := by
  unfold Game.spawn_obstacle; split <;> rfl

@[simp] theorem spawn_obstacle_winner (g : Game) (r : ℚ) (d : ObstacleDraws) :
    (g.spawn_obstacle r d).winner = g.winner := by
  unfold Game.spawn_obstacle; split <;> rfl

theorem spawn_obstacle_mem {g : Game} {r : ℚ} {d : ObstacleDraws} {o : Obstacle}
    (h : o ∈ (g.spawn_obstacle r d).obstacles) :
    o ∈ g.obstacles ∨ o = Obstacle.create_random 0 d := by
  unfold Game.spawn_obstacle at h
  split at h
  · rcases List.mem_append.mp h with h1 | h1
    · exact Or.inl h1
    · exact Or.inr (List.mem_singleton.mp h1)
  · exact Or.inl h

@[simp] theorem check_collisions_obstacles (g : Game) :
    (g.check_collisions).obstacles = g.obstacles := rfl

@[simp] theorem check_collisions_track (g : Game) :
    (g.check_collisions).track_length = g.track_length := rfl

@[simp] theorem check_collisions_state (g : Game) :
    (g.check_collisions).game_state = g.game_state := rfl

@[simp] theorem check_collisions_winner (g : Game) :
    (g.check_collisions).winner = g.winner := rfl

theorem check_collisions_forall₂ (g : Game) :
    List.Forall₂ CarStep g.cars (g.check_collisions).cars :=
  forall₂_map_self _ _ fun c _ => crash_ite_carstep g.obstacles c

@[simp] theorem check_win_cars (g : Game) : (g.check_win_condition).cars = g.cars := by
  unfold Game.check_win_condition
  split
  · rfl
  · split <;> rfl

@[simp] theorem check_win_obstacles (g : Game) :
    (g.check_win_condition).obstacles = g.obstacles := by
  unfold Game.check_win_condition
  split
  · rfl
  · split <;> rfl

@[simp] theorem check_win_track (g : Game) :
    (g.check_win_condition).track_length = g.track_length := by
  unfold Game.check_win_condition
  split
  · rfl
  · split <;> rfl

theorem check_win_find_some {g : Game} {w : Car}
    (hw : g.cars.find? (fun c => decide (c.status = .finished)) = some w) :
    (g.check_win_condition).winner = some w ∧
      (g.check_win_condition).game_state = .finished := by
  unfold Game.check_win_condition
  rw [hw]
  exact ⟨rfl, rfl⟩

theorem check_win_find_none {g : Game}
    (hn : g.cars.find? (fun c => decide (c.status = .finished)) = none) :
    g.check_win_condition =
      if g.cars.all (fun c => decide (c.status = .crashed)) then
        { g with game_state := .finished, winner := none }
      else g := by
  unfold Game.check_win_condition
  rw [hn]

/-! ### Decomposing one tick -/


theorem update_ok_cases {g : Game} {inp : TickInput} {g' : Game}
    (h : g.update inp = .ok g') :
    (g.game_state ≠ .running ∧ g' = g) ∨
      (g.game_state = .running ∧ ∃ cars', updateCars g.cars inp.actions 0 = .ok cars' ∧
        g' = g.tickBody cars' inp) := by
  unfold Game.update at h
  split at h
  · rename_i hrun
    match hc : updateCars g.cars inp.actions 0 with
    | .error e => rw [hc] at h; cases h
    | .ok cars' => rw [hc] at h; cases h; exact Or.inr ⟨hrun, cars', rfl, rfl⟩
  · rename_i hrun; cases h; exact Or.inl ⟨hrun, rfl⟩

theorem tickBody_cars_forall₂ (g : Game) (cars' : List Car) (inp : TickInput) :
    List.Forall₂ CarStep cars' (g.tickBody cars' inp).cars := by
  unfold Game.tickBody
  dsimp only
  rw [check_win_cars]
  have h2 := check_collisions_forall₂
    ((({ g with cars := cars' }).update_obstacles).spawn_obstacle inp.spawnRoll inp.draws)
  simpa using h2

@[simp] theorem tickBody_track (g : Game) (cars' : List Car) (inp : TickInput) :
    (g.tickBody cars' inp).track_length = g.track_length := by
  unfold Game.tickBody
  dsimp only
  rw [check_win_track]
  simp

theorem update_carstep {g : Game} {inp : TickInput} {g' : Game}
    (h : g.update inp = .ok g') : List.Forall₂ CarStep g.cars g'.cars := by
  rcases update_ok_cases h with ⟨_, rfl⟩ | ⟨hrun, cars', hc, rfl⟩
  · exact List.forall₂_same.mpr fun c _ => CarStep.refl c
  · exact forall₂_carstep_trans (updateCars_ok_forall₂ hc) (tickBody_cars_forall₂ g cars' inp)

theorem runTicks_carstep {g : Game} {inps : List TickInput} {g' : Game}
    (h : runTicks g inps = .ok g') : List.Forall₂ CarStep g.cars g'.cars := by
  induction inps generalizing g with
  | nil => unfold runTicks at h; cases h; exact List.forall₂_same.mpr fun c _ => CarStep.refl c
  | cons inp rest ih =>
    unfold runTicks at h
    match hstep : g.update inp with
    | .error e => rw [hstep] at h; cases h
    | .ok g1 =>
      rw [hstep] at h
      exact forall₂_carstep_trans (update_carstep hstep) (ih h)

/-! ### Transport along Forall₂ CarStep -/

theorem forall₂_mem_right {α β : Type} {R : α → β → Prop} {l : List α} {l' : List β}
    (h : List.Forall₂ R l l') {b : β} (hb : b ∈ l') : ∃ a ∈ l, R a b := by
  induction h with
  | nil => cases hb
  | cons hab ht ih =>
    rcases List.mem_cons.mp hb with rfl | hmem
    · exact ⟨_, List.mem_cons_self _ _, hab⟩
    · obtain ⟨a, ha, har⟩ := ih hmem
      exact ⟨a, List.mem_cons_of_mem _ ha, har⟩

theorem carok_of_forall₂ {l l' : List Car} (h : List.Forall₂ CarStep l l')
    (hok : ∀ c ∈ l, CarOK c) : ∀ c' ∈ l', CarOK c' := by
  intro c' hc'
  obtain ⟨c, hc, hstep⟩ := forall₂_mem_right h hc'
  exact (hstep.2.2.2 (hok c hc)).1

theorem pairwise_id_of_forall₂ {l l' : List Car} (h : List.Forall₂ CarStep l l')
    (hp : l.Pairwise fun a b => a.id < b.id) :
    l'.Pairwise fun a b => a.id < b.id := by
  induction h with
  | nil => exact List.Pairwise.nil
  | cons hab ht ih =>
    rcases List.pairwise_cons.mp hp with ⟨ha, hpt⟩
    refine List.pairwise_cons.mpr ⟨?_, ih hpt⟩
    intro b' hb'
    obtain ⟨b, hbmem, hstep⟩ := forall₂_mem_right ht hb'
    rw [hab.1, hstep.1]
    exact ha b hbmem

/-! ### The engine invariant -/

/-- The invariant every reachable state satisfies: fixed track length, the
winner/phase relation, per-car bounds, obstacle bounds, id-sorted cars. -/
def Inv (g : Game) : Prop :=
  g.track_length = TRACK_LENGTH ∧
  (g.winner.isSome ↔ g.game_state = .finished ∧ ∃ c ∈ g.cars, c.status = .finished) ∧
  (∀ c ∈ g.cars, CarOK c) ∧
  (∀ o ∈ g.obstacles, 0 ≤ o.position ∧ o.position ≤ g.track_length) ∧
  g.cars.Pairwise fun a b => a.id < b.id

theorem inv_new : Inv Game.new := by
  unfold Inv Game.new
  refine ⟨rfl, by simp, by simp, by simp, by simp⟩

theorem inv_initRace {d : ℕ → ℚ} (hd : ValidInitDraws d) : Inv (Game.new.initRace d) := by
  unfold Inv Game.initRace Game.new
  refine ⟨rfl, by simp [Car.make], ?_, by simp, ?_⟩
  · intro c hc
    simp only [List.mem_map] at hc
    obtain ⟨lane, hlane, rfl⟩ := hc
    have hr := hd lane
    unfold CarOK Car.make
    have hsp : 0 < d lane * (3 / 2) + 1 / 2 := by
      have := mul_nonneg hr.1 (by norm_num : (0:ℚ) ≤ 3 / 2)
      linarith
    fin_cases hlane <;>
      exact ⟨⟨by norm_num, by norm_num [NUM_LANES]⟩, hsp, le_refl 0, by norm_num [TRACK_LENGTH]⟩
  · rw [List.pairwise_map]
    simp only [Car.make]
    decide

theorem tickBody_obstacles {g : Game} (cars' : List Car) (inp : TickInput)
    (htl : 0 ≤ g.track_length) :
    ∀ o ∈ (g.tickBody cars' inp).obstacles, 0 ≤ o.position ∧ o.position ≤ g.track_length := by
  intro o ho
  have hob : (g.tickBody cars' inp).obstacles =
      ((({ g with cars := cars' }).update_obstacles).spawn_obstacle
        inp.spawnRoll inp.draws).obstacles := by
    unfold Game.tickBody
    dsimp only
    rw [check_win_obstacles, check_collisions_obstacles]
  rw [hob] at ho
  rcases spawn_obstacle_mem ho with hmem | rfl
  · rw [update_obstacles_obstacles] at hmem
    have := List.of_mem_filter hmem
    simp only [Obstacle.is_off_track, Bool.not_eq_true', decide_eq_false_iff_not,
      not_or, not_lt] at this
    exact ⟨this.1, this.2⟩
  · exact ⟨le_refl 0, htl⟩

/-- check_win_condition establishes the winner/phase relation whenever it
starts from an unset winner. -/
theorem check_win_winner_iff {Z : Game} (hw : Z.winner = none) :
    ((Z.check_win_condition).winner.isSome ↔
      (Z.check_win_condition).game_state = GameState.finished ∧
        ∃ c ∈ Z.cars, c.status = Status.finished) := by
  match hf : Z.cars.find? (fun c => decide (c.status = .finished)) with
  | some w =>
    obtain ⟨h1, h2⟩ := check_win_find_some hf
    rw [h1, h2]
    exact iff_of_true (by simp)
      ⟨rfl, w, List.mem_of_find?_eq_some hf, by simpa using List.find?_some hf⟩
  | none =>
    have hnof : ∀ c ∈ Z.cars, c.status ≠ Status.finished := by
      intro c hcz
      simpa using List.find?_eq_none.mp hf c hcz
    rw [check_win_find_none hf]
    split
    · exact iff_of_false (by simp) (by rintro ⟨_, c, hcz, hfin⟩; exact hnof c hcz hfin)
    · exact iff_of_false (by simp [hw]) (by rintro ⟨_, c, hcz, hfin⟩; exact hnof c hcz hfin)

/-- tickBody spelled out: check_win_condition of the collision pass of the
spawn pass of the obstacle pass, with the tick bumped. -/
theorem tickBody_eq_check_win (g : Game) (cars' : List Car) (inp : TickInput) :
    g.tickBody cars' inp =
      { ((({ g with cars := cars' }).update_obstacles).spawn_obstacle
          inp.spawnRoll inp.draws).check_collisions.check_win_condition with
        tick := ((({ g with cars := cars' }).update_obstacles).spawn_obstacle
          inp.spawnRoll inp.draws).check_collisions.check_win_condition.tick + 1 } := rfl

theorem inv_step {g : Game} {inp : TickInput} {g' : Game} (hinv : Inv g)
    (h : g.update inp = .ok g') : Inv g' := by
  rcases update_ok_cases h with ⟨_, rfl⟩ | ⟨hrun, cars', hc, rfl⟩
  · exact hinv
  · obtain ⟨htl, hwin, hcars, hobs, hpair⟩ := hinv
    have hwnone : g.winner = none := by
      cases hw : g.winner with
      | none => rfl
      | some w =>
        have := (hwin.mp (by simp [hw])).1
        rw [hrun] at this
        cases this
    refine ⟨?_, ?_, ?_, ?_, ?_⟩
    · rw [tickBody_track]; exact htl
    · rw [tickBody_eq_check_win]
      dsimp only
      rw [check_win_cars]
      exact check_win_winner_iff (by simp [hwnone])
    · exact carok_of_forall₂ (update_carstep h) hcars
    · have h0 : (0:ℚ) ≤ g.track_length := by rw [htl]; norm_num [TRACK_LENGTH]
      have := tickBody_obstacles (g := g) cars' inp h0
      intro o ho
      rw [tickBody_track]
      exact this o ho
    · exact pairwise_id_of_forall₂ (update_carstep h) hpair

/-- Every reachable state satisfies the engine invariant. -/
theorem reachable_inv {g : Game} (h : Reachable g) : Inv g := by
  induction h with
  | base => exact inv_new
  | start d hd => exact inv_initRace hd
  | step inp g' hr hv hupd ih => exact inv_step ih hupd

theorem forall₂_carstep_strengthen {l l' : List Car} (h : List.Forall₂ CarStep l l')
    (hok : ∀ c ∈ l, CarOK c) :
    List.Forall₂ (fun a b => a.position ≤ b.position ∧ (a.status ≠ Status.active → b = a))
      l l' := by
  induction h with
  | nil => exact List.Forall₂.nil
  | cons hab ht ih =>
    refine List.Forall₂.cons
      ⟨(hab.2.2.2 (hok _ (List.mem_cons_self _ _))).2, hab.2.2.1⟩
      (ih fun c hc => hok c (List.mem_cons_of_mem _ hc))

/-- On an id-sorted car list, the first finished car in list order has the
least id among the finished cars. -/
theorem find?_finished_min_id : ∀ (l : List Car),
    (l.Pairwise fun a b => a.id < b.id) →
    ∀ {w : Car}, l.find? (fun c => decide (c.status = Status.finished)) = some w →
    ∀ c ∈ l, c.status = Status.finished → w.id ≤ c.id := by
  intro l
  induction l with
  | nil => intro _ w hw; cases hw
  | cons a t ih =>
    intro hsort w hw c hc hcfin
    rcases List.pairwise_cons.mp hsort with ⟨ha, hpt⟩
    by_cases hfin : a.status = Status.finished
    · rw [List.find?_cons_of_pos _ (by simpa using hfin)] at hw
      cases hw
      rcases List.mem_cons.mp hc with rfl | hmem
      · exact le_refl _
      · exact le_of_lt (ha c hmem)
    · rw [List.find?_cons_of_neg _ (by simpa using hfin)] at hw
      rcases List.mem_cons.mp hc with rfl | hmem
      · exact absurd hcfin hfin
      · exact ih hpt hw c hmem hcfin

/-! ### The claims -/

/-- C1: in every reachable state the winner is set iff the phase is finished
and at least one car has finished status (so a set winner implies the
finished phase); moreover a tick taken from a running state after which
every car has crashed ends with phase finished and the winner unset. -/
theorem c1_winner_iff_finished (g : Game) (hg : Reachable g) :
    (g.winner.isSome ↔ g.game_state = GameState.finished ∧
      ∃ c ∈ g.cars, c.status = Status.finished) ∧
    (∀ (inp : TickInput) (g' : Game), g.game_state = GameState.running →
      g.update inp = .ok g' → (∀ c ∈ g'.cars, c.status = Status.crashed) →
      g'.game_state = GameState.finished ∧ g'.winner = none) := by
  refine ⟨(reachable_inv hg).2.1, ?_⟩
  intro inp g' hrun hupd hall
  rcases update_ok_cases hupd with ⟨hnr, _⟩ | ⟨_, cars', hc, rfl⟩
  · exact absurd hrun hnr
  · rw [tickBody_eq_check_win] at hall ⊢
    dsimp only at hall ⊢
    rw [check_win_cars] at hall
    set Z := ((({ g with cars := cars' }).update_obstacles).spawn_obstacle
      inp.spawnRoll inp.draws).check_collisions with hZ
    have hf : Z.cars.find? (fun c => decide (c.status = Status.finished)) = none := by
      rw [List.find?_eq_none]
      intro c hcz
      simp [hall c hcz]
    have hallb : Z.cars.all (fun c => decide (c.status = Status.crashed)) = true := by
      rw [List.all_eq_true]
      intro c hcz
      simpa using hall c hcz
    rw [check_win_find_none hf, if_pos hallb]
    exact ⟨rfl, rfl⟩

/-- C2: tick() on a state whose phase is not running (in particular a
finished state) returns the state unchanged, so repeated calls are no-ops. -/
theorem c2_tick_noop (g : Game) (inp : TickInput) (h : g.game_state ≠ GameState.running) :
    g.update inp = .ok g := by
  unfold Game.update
  rw [if_neg h]

/-- C3: on an id-sorted car list (as every reachable state has), if some car
has finished, check_win_condition sets the phase to finished and picks as
winner a finished car whose id is least among the finished cars; with cars
of ids 2 and 5 both finished, the winner is the car of id 2 (see witness). -/
theorem c3_first_finisher_lowest_id (g : Game)
    (hsort : g.cars.Pairwise fun a b => a.id < b.id)
    (hfin : ∃ c ∈ g.cars, c.status = Status.finished) :
    ∃ w, (g.check_win_condition).winner = some w ∧
      (g.check_win_condition).game_state = GameState.finished ∧
      w ∈ g.cars ∧ w.status = Status.finished ∧
      ∀ c ∈ g.cars, c.status = Status.finished → w.id ≤ c.id := by
  obtain ⟨c0, hc0, hc0fin⟩ := hfin
  have hsome : (g.cars.find? fun c => decide (c.status = Status.finished)).isSome := by
    rw [List.find?_isSome]
    exact ⟨c0, hc0, by simpa using hc0fin⟩
  obtain ⟨w, hw⟩ := Option.isSome_iff_exists.mp hsome
  obtain ⟨h1, h2⟩ := check_win_find_some hw
  exact ⟨w, h1, h2, List.mem_of_find?_eq_some hw, by simpa using List.find?_some hw,
    find?_finished_min_id g.cars hsort hw⟩

/-- C4: move_down is a no-op on a non-active car; on an active car it adds
the speed to the position, clamping to TRACK_LENGTH with status finished
when the sum reaches TRACK_LENGTH, so the resulting position never exceeds
TRACK_LENGTH. -/
theorem c4_advance_spec (c : Car) :
    (c.status ≠ Status.active → c.move_down = c) ∧
    (c.status = Status.active →
      (TRACK_LENGTH ≤ c.position + c.speed →
        c.move_down = { c with position := TRACK_LENGTH, status := Status.finished }) ∧
      (c.position + c.speed < TRACK_LENGTH →
        c.move_down = { c with position := c.position + c.speed }) ∧
      c.move_down.position ≤ TRACK_LENGTH) := by
  constructor
  · intro hna
    unfold Car.move_down
    rw [if_pos hna]
  · intro hact
    unfold Car.move_down
    rw [if_neg (by simp [hact])]
    dsimp only
    refine ⟨fun hge => by rw [if_pos hge], fun hlt => by rw [if_neg (not_le.mpr hlt)], ?_⟩
    split
    · exact le_refl _
    · dsimp only
      linarith [not_le.mp (by assumption)]

/-- C5: in every reachable state every car's lane lies in [0, NUM_LANES);
initialization puts one car per lane in lane order; and on an active car
switch_lane applies lane + direction exactly when that candidate lies in
[0, NUM_LANES), silently keeping the lane otherwise (no wraparound). -/
theorem c5_lane_bounds (g : Game) (hg : Reachable g) :
    (∀ c ∈ g.cars, 0 ≤ c.lane ∧ c.lane < NUM_LANES) ∧
    (∀ d : ℕ → ℚ, ((Game.new.initRace d).cars.map fun c => c.lane) = [0, 1, 2, 3]) ∧
    (∀ (c : Car) (direction : ℤ), c.status = Status.active →
      c.switch_lane direction =
        if 0 ≤ c.lane + direction ∧ c.lane + direction < NUM_LANES then
          { c with lane := c.lane + direction }
        else c) := by
  refine ⟨?_, ?_, ?_⟩
  · intro c hc
    exact ((reachable_inv hg).2.2.1 c hc).1
  · intro d
    simp [Game.initRace, Game.new, Car.make]
  · intro c direction hact
    unfold Car.switch_lane
    rw [if_neg (by simp [hact])]

/-- C6: from any reachable state, across any sequence of non-raising ticks,
each car's position never decreases, and a car that is not active (crashed
or finished) is not touched at all by any later tick. -/
theorem c6_position_monotone (g : Game) (hg : Reachable g) (inps : List TickInput)
    (g' : Game) (h : runTicks g inps = .ok g') :
    List.Forall₂ (fun a b => a.position ≤ b.position ∧ (a.status ≠ Status.active → b = a))
      g.cars g'.cars :=
  forall₂_carstep_strengthen (runTicks_carstep h) (reachable_inv hg).2.2.1

/-- C7: in every reachable state (hence after every completed tick) every
obstacle's position lies in [0, track_length]. -/
theorem c7_obstacles_in_range (g : Game) (hg : Reachable g) :
    ∀ o ∈ g.obstacles, 0 ≤ o.position ∧ o.position ≤ g.track_length :=
  (reachable_inv hg).2.2.2.1

/-- C10: status transitions are one-way: across any sequence of ticks from
any state, a car that is not active (crashed or finished) is never mutated
again, so in particular its status never changes. -/
theorem c10_status_oneway (g : Game) (inps : List TickInput) (g' : Game)
    (h : runTicks g inps = .ok g') :
    List.Forall₂ (fun a b => a.status ≠ Status.active → b = a) g.cars g'.cars :=
  List.Forall₂.imp (fun _ _ hab => hab.2.2.1) (runTicks_carstep h)

/-- C8 (amended): if the phase is running and the gather step fails — some
active car's controller call raises — tick() propagates exactly that error:
no Stay fallback is applied and nothing past the gather step runs. -/
theorem c8_policy_error_propagates (g : Game) (inp : TickInput) (e : PolicyError)
    (hrun : g.game_state = GameState.running)
    (herr : updateCars g.cars inp.actions 0 = .error e) :
    g.update inp = .error e := by
  unfold Game.update
  rw [if_pos hrun, herr]

/-- C9 (amended): create_random with valid draws yields lane in
[0, NUM_LANES); the kind is moving exactly on a type draw below 0.2; a
moving obstacle's speed lies in the half-open interval [0, 0.5) — it can be
0, since random.random() can return 0 — a static obstacle's speed is 0, and
a positive speed implies the moving kind (but not conversely). -/
theorem c9_create_random_spec (position : ℚ) (d : ObstacleDraws) (hd : ValidDraws d) :
    (0 ≤ (Obstacle.create_random position d).lane ∧
      (Obstacle.create_random position d).lane < NUM_LANES) ∧
    ((Obstacle.create_random position d).type = OType.moving ↔ d.typeRoll < 1 / 5) ∧
    ((Obstacle.create_random position d).type = OType.moving →
      0 ≤ (Obstacle.create_random position d).speed ∧
        (Obstacle.create_random position d).speed < 1 / 2) ∧
    ((Obstacle.create_random position d).type = OType.static →
      (Obstacle.create_random position d).speed = 0) ∧
    (0 < (Obstacle.create_random position d).speed →
      (Obstacle.create_random position d).type = OType.moving) := by
  obtain ⟨hlane, htype, hspeed, hsym⟩ := hd
  have hsp0 : 0 ≤ d.speedRoll * (1 / 2) := mul_nonneg hspeed.1 (by norm_num)
  have hsp1 : d.speedRoll * (1 / 2) < 1 / 2 := by
    have := mul_lt_mul_of_pos_right hspeed.2 (show (0:ℚ) < 1 / 2 by norm_num)
    simpa using this
  have hty : (Obstacle.create_random position d).type =
      (if d.typeRoll < 1 / 5 then OType.moving else OType.static) := rfl
  have hspd : (Obstacle.create_random position d).speed =
      (if (if d.typeRoll < 1 / 5 then OType.moving else OType.static) = OType.moving then
        d.speedRoll * (1 / 2) else 0) := rfl
  by_cases hm : d.typeRoll < 1 / 5
  · refine ⟨⟨Int.natCast_nonneg _, hlane⟩, ?_, ?_, ?_, ?_⟩
    · rw [hty, if_pos hm]
      exact iff_of_true rfl hm
    · intro _
      rw [hspd, if_pos hm, if_pos rfl]
      exact ⟨hsp0, hsp1⟩
    · intro hstatic
      rw [hty, if_pos hm] at hstatic
      cases hstatic
    · intro _
      rw [hty, if_pos hm]
  · refine ⟨⟨Int.natCast_nonneg _, hlane⟩, ?_, ?_, ?_, ?_⟩
    · rw [hty, if_neg hm]
      exact iff_of_false (fun h => by cases h) hm
    · intro hmov
      rw [hty, if_neg hm] at hmov
      cases hmov
    · intro _
      rw [hspd, if_neg hm, if_neg (fun h => by cases h)]
    · intro hpos
      rw [hspd, if_neg hm, if_neg (fun h => by cases h)] at hpos
      exact absurd hpos (by norm_num)

/-! ### Concrete states for the witnesses and counterexamples -/

/-- All-zero obstacle draws: a legal outcome of Python's random module
(random.random() can return 0.0). -/
def zeroDraws : ObstacleDraws :=
  { laneRoll := 0, typeRoll := 0, speedRoll := 0, symbolRoll := 0 }

/-- Initialization speed draws all 1/2 (every car gets speed 5/4). -/
def demoInitDraws : ℕ → ℚ := fun _ => 1 / 2

/-- The game right after Game.initialize. -/
def demoStart : Game := Game.new.initRace demoInitDraws

/-- A tick input whose every controller call raises. -/
def failInput : TickInput :=
  { actions := fun _ => .error { msg := "policy failure" }, spawnRoll := 1,
    draws := zeroDraws }

/-- A tick input where every controller says stay and an obstacle spawns in
lane 3 at the track start. -/
def spawnInput : TickInput :=
  { actions := fun _ => .ok .stay, spawnRoll := 0,
    draws := { laneRoll := 3, typeRoll := 1 / 2, speedRoll := 0, symbolRoll := 0 } }

/-- The obstacle the spawnInput tick creates. -/
def demoOb : Obstacle :=
  { lane := 3, position := 0, type := OType.static, symbol := "🚧", speed := 0 }

/-- The state one spawnInput tick after demoStart: every car advanced to
5/4 (clear of the new obstacle at position 0), the obstacle spawned in
lane 3, tick 1, still running. -/
def demoTick1 : Game :=
  { cars := [
      { id := 0, lane := 0, position := 5 / 4, speed := 5 / 4, symbol := "🚗", status := .active },
      { id := 1, lane := 1, position := 5 / 4, speed := 5 / 4, symbol := "🚙", status := .active },
      { id := 2, lane := 2, position := 5 / 4, speed := 5 / 4, symbol := "🚕", status := .active },
      { id := 3, lane := 3, position := 5 / 4, speed := 5 / 4, symbol := "🚓", status := .active }],
    obstacles := [demoOb], track_length := 30, tick := 1,
    game_state := .running, winner := none }

theorem reachable_demoStart : Reachable demoStart :=
  Reachable.start demoInitDraws fun _ => ⟨by norm_num [demoInitDraws], by norm_num [demoInitDraws]⟩

theorem decide_status_af : decide (Status.active = Status.finished) = false := by decide

theorem decide_status_ac : decide (Status.active = Status.crashed) = false := by decide

theorem demoStart_update : demoStart.update spawnInput = .ok demoTick1 := by
  norm_num [demoStart, Game.new, Game.initRace, Car.make, demoInitDraws, Game.update,
    Game.tickBody, updateCars, Car.update_async, Car.move_down, Car.switch_lane,
    Game.update_obstacles, Game.spawn_obstacle, Game.check_collisions,
    Game.check_win_condition, Car.check_collision, Obstacle.create_random, Obstacle.make,
    Obstacle.update, Obstacle.is_off_track, spawnInput, demoTick1, demoOb, TRACK_LENGTH,
    NUM_LANES, OBSTACLE_SPAWN_RATE, CAR_SYMBOLS, OBSTACLE_SYMBOLS, abs_lt, List.find?,
    decide_status_af, decide_status_ac]

theorem reachable_demoTick1 : Reachable demoTick1 :=
  Reachable.step spawnInput demoTick1 reachable_demoStart
    ⟨by norm_num [spawnInput],
      by norm_num [ValidDraws, spawnInput, NUM_LANES, OBSTACLE_SYMBOLS]⟩
    demoStart_update

/-- A finished game for the C2 witness. -/
def doneGame : Game := { Game.new with game_state := GameState.finished }

/-- A car one step short of the finish line, with speed enough to cross. -/
def fastCar : Car :=
  { id := 0, lane := 0, position := 29, speed := 2, symbol := "🚗", status := .active }

/-- An active car in lane 0 (the track edge). -/
def edgeCar : Car :=
  { id := 0, lane := 0, position := 0, speed := 1, symbol := "🚗", status := .active }

/-- A finished car of id 2. -/
def car2 : Car :=
  { id := 2, lane := 0, position := 30, speed := 1, symbol := "🚗", status := .finished }

/-- A finished car of id 5. -/
def car5 : Car :=
  { id := 5, lane := 1, position := 30, speed := 1, symbol := "🚙", status := .finished }

/-- A running game in which the cars of ids 2 and 5 finished on the same
tick (the spec's Scenario D). -/
def tieGame : Game := { Game.new with cars := [car2, car5], game_state := GameState.running }

/-- Obstacle draws for the C9 witness: lane 2, static kind. -/
def staticDraws : ObstacleDraws :=
  { laneRoll := 2, typeRoll := 1 / 2, speedRoll := 1 / 2, symbolRoll := 1 }

/-! ### Witnesses and counterexamples -/

/-- C1 witness: the fresh game, a reachable state, has no winner. -/
theorem c1_witness : Game.new.winner = none := by
  have h := (c1_winner_iff_finished Game.new Reachable.base).1
  have hno : ¬ (Game.new.game_state = GameState.finished ∧
      ∃ c ∈ Game.new.cars, c.status = Status.finished) := by
    rintro ⟨hfin, _⟩
    exact absurd hfin (by decide)
  exact Option.not_isSome_iff_eq_none.mp (mt h.mp hno)

/-- C2 witness: a tick on a finished game returns it unchanged. -/
theorem c2_witness : doneGame.update failInput = Except.ok doneGame :=
  c2_tick_noop doneGame failInput (by decide)

/-- C3 witness: with the cars of ids 2 and 5 both finished, the winner is
the car of id 2. -/
theorem c3_witness : (tieGame.check_win_condition).winner = some car2 := by
  obtain ⟨w, hw, hst, hmem, hfin, hmin⟩ := c3_first_finisher_lowest_id tieGame
    (by decide) ⟨car2, by simp [tieGame], by decide⟩
  have h2 : w.id ≤ 2 := hmin car2 (by simp [tieGame]) (by decide)
  have hcases : w = car2 ∨ w = car5 := by simpa [tieGame] using hmem
  rcases hcases with rfl | rfl
  · exact hw
  · exact absurd h2 (by decide)

/-- C4 witness: the car at position 29 with speed 2 is clamped to the
finish line and finishes. -/
theorem c4_witness :
    fastCar.move_down = { fastCar with position := TRACK_LENGTH, status := Status.finished } :=
  ((c4_advance_spec fastCar).2 rfl).1 (by norm_num [fastCar, TRACK_LENGTH])

/-- C5 witness: a lane change off the left edge is silently ignored. -/
theorem c5_witness : edgeCar.switch_lane (-1) = edgeCar := by
  have h := (c5_lane_bounds Game.new Reachable.base).2.2 edgeCar (-1) rfl
  rw [h, if_neg (by decide)]

/-- C6 witness: the empty tick sequence from the fresh game keeps every
position and every non-active car. -/
theorem c6_witness :
    List.Forall₂ (fun a b => a.position ≤ b.position ∧ (a.status ≠ Status.active → b = a))
      Game.new.cars Game.new.cars :=
  c6_position_monotone Game.new Reachable.base [] Game.new rfl

/-- C7 witness: the obstacle spawned on the first tick sits inside
[0, track_length]. -/
theorem c7_witness :
    0 ≤ demoOb.position ∧ demoOb.position ≤ demoTick1.track_length :=
  c7_obstacles_in_range demoTick1 reachable_demoTick1 demoOb (by simp [demoTick1])

/-- C8 counterexample: with every car's controller raising, tick() from the
freshly initialized game returns the error — the exception surfaces across
the tick() boundary instead of being degraded to a Stay for that car. -/
theorem c8_counterexample :
    demoStart.update failInput = Except.error { msg := "policy failure" } := rfl

/-- C8 witness: the amended propagation theorem applied to the freshly
initialized game and the all-raising input. -/
theorem c8_witness :
    demoStart.update failInput = Except.error { msg := "policy failure" } :=
  c8_policy_error_propagates demoStart failInput _ rfl rfl

/-- C9 counterexample: the all-zero draws are a legal outcome of Python's
random module, yet they produce a moving obstacle of speed 0 — refuting
both "speed in the open interval (0, 0.5) when moving" and "speed > 0
exactly when moving". -/
theorem c9_counterexample :
    ValidDraws zeroDraws ∧ (Obstacle.create_random 0 zeroDraws).type = OType.moving ∧
      (Obstacle.create_random 0 zeroDraws).speed = 0 := by
  refine ⟨by norm_num [ValidDraws, zeroDraws, NUM_LANES, OBSTACLE_SYMBOLS], ?_, ?_⟩ <;>
    norm_num [Obstacle.create_random, Obstacle.make, zeroDraws]

/-- C9 witness: the amended factory specification at concrete static
draws. -/
theorem c9_witness :
    0 ≤ (Obstacle.create_random 0 staticDraws).lane ∧
      (Obstacle.create_random 0 staticDraws).lane < NUM_LANES :=
  (c9_create_random_spec 0 staticDraws
    (by norm_num [ValidDraws, staticDraws, NUM_LANES, OBSTACLE_SYMBOLS])).1

/-- C10 witness: the empty tick sequence from the initialized game keeps
every non-active car unchanged. -/
theorem c10_witness :
    List.Forall₂ (fun a b => a.status ≠ Status.active → b = a) demoStart.cars demoStart.cars :=
  c10_status_oneway demoStart [] demoStart rfl

end RaceSim
